import Mathlib

/-!
Verification development for the Universal-Web-Scraper repository.

The definitions below are a shallow embedding of the schema-driven
extraction-and-transformation engine of `src/lib/scraper.js` (the `Scraper`
class with custom-transform support), the standalone transform
`src/transforms/removeSuffix.js`, and the `Validator.validateScrapedData`
method of `src/lib/validator.js`.

Modelling conventions:
* JavaScript strings are Lean `String`s; the JS string methods used by the
  source (`trim`, `split`, `startsWith`, `endsWith`, `slice`, `toLowerCase`,
  `toUpperCase`, `parseFloat`) are given explicit executable models below,
  implemented over `List Char`.
* JS runtime values flowing through the engine are modelled by `JSValue`
  (string, number, `undefined`, `null`); numbers are modelled as exact
  rationals.
* Fallible JS code (code that can `throw`) is modelled with
  `Except String`; a thrown error carries its message.
* External capabilities (the browser renderer, cheerio document queries,
  the WHATWG `URL` parser, the custom-transform module directory) are
  abstracted as parameters: a rendered document is a query function
  `Doc`, URL parsing/resolution lives in `JsEnv`, and the loaded custom
  transform modules are a `Registry` (memoization in
  `loadCustomTransform` only caches the same loader result, so the
  post-load registry is modelled as a pure name-to-function map where
  `none` stands for a load failure: module missing or the default export
  not being a function).
-/

namespace UWS

set_option maxRecDepth 4000

/-- Model of JavaScript whitespace as used by `String.prototype.trim`
(restricted to the common ASCII whitespace characters). -/
def jsWhitespace (c : Char) : Bool :=
  c = ' ' || c = '\t' || c = '\n' || c = '\r'

/-- Trim a character list at both ends (model of `String.prototype.trim`). -/
def trimChars (l : List Char) : List Char :=
  ((l.dropWhile jsWhitespace).reverse.dropWhile jsWhitespace).reverse

/-- Model of `String.prototype.trim`. -/
def jsTrim (s : String) : String :=
  (trimChars s.data).asString

/-- Model of `String.prototype.startsWith`. -/
def jsStartsWith (s pre : String) : Bool :=
  pre.data.isPrefixOf s.data

/-- Model of `String.prototype.endsWith`. -/
def jsEndsWith (s suf : String) : Bool :=
  suf.data.isSuffixOf s.data

/-- Split a character list on a separator, keeping empty chunks, as
`String.prototype.split` does with a single-character separator. -/
def splitOnCharL (sep : Char) : List Char → List (List Char)
  | [] => [[]]
  | c :: cs =>
    match splitOnCharL sep cs with
    | [] => if c = sep then [[], []] else [[c]]
    | h :: t => if c = sep then [] :: h :: t else (c :: h) :: t

/-- Model of `String.prototype.split` with a one-character separator. -/
def jsSplit (sep : Char) (s : String) : List String :=
  (splitOnCharL sep s.data).map List.asString

/-- Model of `String.prototype.toLowerCase` (ASCII case folding). -/
def jsToLower (s : String) : String :=
  (s.data.map Char.toLower).asString

/-- Model of `String.prototype.toUpperCase` (ASCII case folding). -/
def jsToUpper (s : String) : String :=
  (s.data.map Char.toUpper).asString

/-- JS runtime values flowing through the extraction engine: strings,
numbers (modelled as exact rationals), `undefined` and `null`. -/
inductive JSValue where
  | str (s : String)
  | num (q : ℚ)
  | undef
  | null
deriving DecidableEq, Repr

/-- JS truthiness test (`!value` is `jsFalsy value`) for the values the
engine manipulates. -/
def jsFalsy : JSValue → Bool
  | .str s => s = ""
  | .num q => q = 0
  | .undef => true
  | .null => true

def digitsToNat (l : List Char) : Nat :=
  l.foldl (fun n c => n * 10 + (c.toNat - '0'.toNat)) 0

/-- Model of the JS builtin `parseFloat`, restricted to the inputs the
`number` transform feeds it (strings over `[0-9.-]`): optional sign, then
the longest prefix `digits [. digits]`; `none` models `NaN`. -/
def jsParseFloatL (cs : List Char) : Option ℚ :=
  let signed : ℚ × List Char :=
    match cs with
    | '-' :: r => (-1, r)
    | r => (1, r)
  let intPart := signed.2.takeWhile Char.isDigit
  let rest := signed.2.dropWhile Char.isDigit
  let fracPart :=
    match rest with
    | '.' :: r => r.takeWhile Char.isDigit
    | _ => []
  if intPart = [] ∧ fracPart = [] then none
  else some (signed.1 * ((digitsToNat (intPart ++ fracPart) : ℚ) / (10 ^ fracPart.length)))

/-- Model of `parseFloat` on strings. -/
def jsParseFloat (s : String) : Option ℚ :=
  jsParseFloatL s.data

/-- External URL capabilities consumed by the engine (the WHATWG `URL`
class of the JS platform): `urlPathname v` is `new URL(v).pathname` when
`v` parses as an absolute URL (`none` models the constructor throwing),
and `resolveUrl v base` is `new URL(v, base).href`. -/
structure JsEnv where
  urlPathname : String → Option String
  resolveUrl : String → String → String

/-- A parsed transform invocation, as produced by
`Scraper.parseTransformChain`: `{ type: 'builtin', name }` or
`{ type: 'custom', name, args }`. -/
inductive TransformInv where
  | builtin (name : String)
  | custom (name : String) (args : List String)
deriving DecidableEq, Repr

/-- Word characters of the JS regex class `\w`. -/
def isWordChar (c : Char) : Bool :=
  c.isAlphanum || c = '_'

/-- Character-list test for `trimmed.startsWith('custom:')`. -/
def startsWithCustom (l : List Char) : Bool :=
  "custom:".data.isPrefixOf l

/-- Embedding of `Scraper.parseCustomTransform` (over the characters of
the already-trimmed invocation text).  The source matches the regex
`^custom:(\w+)\((.*)\)$` — a literal `custom:` tag, a non-empty run of
word characters, a `(`, then (because `.` does not match a newline and the
match is anchored) any newline-free text up to a final `)` — and on
success splits the argument text on `;`, trimming each argument;
an empty argument text yields `[]`.  A failed match throws
`Invalid custom transform syntax: ...`. -/
def parseCustomTransformL (cs : List Char) : Except String TransformInv :=
  let fail : Except String TransformInv :=
    .error ("Invalid custom transform syntax: " ++ cs.asString)
  if startsWithCustom cs then
    let rest := cs.drop 7
    let name := rest.takeWhile isWordChar
    match name, rest.dropWhile isWordChar with
    | [], _ => fail
    | _, '(' :: body =>
      match body.getLast? with
      | some ')' =>
        let middle := body.dropLast
        if middle.contains '\n' then fail
        else
          .ok (.custom name.asString
            (if middle = [] then []
             else (splitOnCharL ';' middle).map (fun a => (trimChars a).asString)))
      | _ => fail
    | _, _ => fail
  else fail

/-- Wrapper of `Scraper.parseCustomTransform` on a string. -/
def parseCustomTransform (s : String) : Except String TransformInv :=
  parseCustomTransformL s.data

/-- Flushing one accumulated invocation text in
`Scraper.parseTransformChain`: trim it, drop it when empty, parse it as a
custom invocation when it starts with `custom:` (propagating the parse
error), otherwise record a builtin invocation. -/
def flushToken (current : List Char) : Except String (Option TransformInv) :=
  let t := trimChars current
  if t = [] then .ok none
  else if startsWithCustom t then (parseCustomTransformL t).map some
  else .ok (some (.builtin t.asString))

/-- The per-character state update of `Scraper.parseTransformChain`:
`inCustomTransform` / `parenCount` track parentheses, but only once the
accumulated text (trimmed) starts with `custom:`. -/
def stepState (current : List Char) (inC : Bool) (pc : Int) (c : Char) : Bool × Int :=
  if startsWithCustom (trimChars current) ∧ c = '(' then (true, pc + 1)
  else if inC ∧ c = '(' then (inC, pc + 1)
  else if inC ∧ c = ')' then (if pc - 1 = 0 then false else inC, pc - 1)
  else (inC, pc)

/-- The character loop of `Scraper.parseTransformChain`: a `,` is a chain
separator only when not inside a custom invocation's parentheses; any
other character (and a `,` inside such parentheses) is appended to the
accumulated invocation text; the final accumulated text is flushed at the
end. -/
def parseChainGo : List Char → List Char → Bool → Int → Except String (List TransformInv)
  | [], current, _, _ =>
    (match flushToken current with
     | .error e => .error e
     | .ok none => .ok []
     | .ok (some t) => .ok [t])
  | c :: cs, current, inC, pc =>
    let st := stepState current inC pc c
    if c = ',' ∧ st.1 = false then
      match flushToken current with
      | .error e => .error e
      | .ok none => parseChainGo cs [] st.1 st.2
      | .ok (some t) => (parseChainGo cs [] st.1 st.2).map (t :: ·)
    else parseChainGo cs (current ++ [c]) st.1 st.2

/-- Embedding of `Scraper.parseTransformChain`. -/
def parseTransformChain (chain : String) : Except String (List TransformInv) :=
  parseChainGo chain.data [] false 0

/-- Strip at most one leading `/` (model of `value.replace(/^\//, '')`). -/
def stripLeadSlash (s : String) : String :=
  match s.data with
  | '/' :: r => r.asString
  | _ => s

/-- Strip at most one trailing `/` (model of `value.replace(/\/$/, '')`). -/
def stripTrailSlash (s : String) : String :=
  match s.data.getLast? with
  | some '/' => s.data.dropLast.asString
  | _ => s

/-- Embedding of `Scraper.applyBuiltinTransform`.  The `switch` has cases
for exactly `trim`, `lowercase`, `uppercase`, `number` and `slugFromUrl`;
any other name falls through to `default: return value`.  The five string
methods invoked by the recognized cases throw a `TypeError` when the value
reaching them is not a string (possible mid-chain, after a `number`
invocation); this is modelled by `.error`. -/
def applyBuiltinTransform (env : JsEnv) (value : JSValue) (transform : String) :
    Except String JSValue :=
  if transform = "trim" then
    match value with
    | .str s => .ok (.str (jsTrim s))
    | _ => .error "TypeError: value.trim is not a function"
  else if transform = "lowercase" then
    match value with
    | .str s => .ok (.str (jsToLower s))
    | _ => .error "TypeError: value.toLowerCase is not a function"
  else if transform = "uppercase" then
    match value with
    | .str s => .ok (.str (jsToUpper s))
    | _ => .error "TypeError: value.toUpperCase is not a function"
  else if transform = "number" then
    match value with
    | .str s =>
      match jsParseFloatL (s.data.filter (fun c => c.isDigit || c = '.' || c = '-')) with
      | some q => .ok (.num q)
      | none => .ok (.str s)
    | _ => .error "TypeError: value.replace is not a function"
  else if transform = "slugFromUrl" then
    match value with
    | .str s =>
      match env.urlPathname s with
      | some p => .ok (.str (stripTrailSlash (stripLeadSlash p)))
      | none =>
        let r := stripTrailSlash (stripLeadSlash s)
        .ok (.str (if r = "" then s else r))
    | _ => .error "TypeError: value.replace is not a function"
  else .ok value

/-- A loaded custom transform: `(value, ...args) => value`, which may
throw during execution. -/
abbrev CustomFn : Type :=
  JSValue → List String → Except String JSValue

/-- The resolved custom-transform modules: `none` models
`loadCustomTransform` throwing (module file missing, import failure, or
the default export not being a function). -/
abbrev Registry : Type :=
  String → Option CustomFn

/-- Embedding of `Scraper.applyCustomTransform`: load the transform and
run it; any load or execution error is caught, logged, and the incoming
value is returned unchanged. -/
def applyCustomTransform (reg : Registry) (value : JSValue) (name : String)
    (args : List String) : JSValue :=
  match reg name with
  | none => value
  | some f =>
    match f value args with
    | .ok r => r
    | .error _ => value

/-- One step of the chain loop in `Scraper.transformValue`. -/
def applyTransformStep (env : JsEnv) (reg : Registry) (v : JSValue) :
    TransformInv → Except String JSValue
  | .builtin name => applyBuiltinTransform env v name
  | .custom name args => .ok (applyCustomTransform reg v name args)

/-- Truthiness of `column.transform`: absent or the empty string is falsy. -/
def transformTruthy : Option String → Bool
  | none => false
  | some s => s ≠ ""

/-- Embedding of `Scraper.transformValue`: if the chain specification is
falsy or the value is not a string, return the value unchanged; otherwise
parse the chain (propagating a parse error) and fold the invocations over
the value left to right (propagating any invocation error). -/
def transformValue (env : JsEnv) (reg : Registry) (value : JSValue)
    (transform : Option String) : Except String JSValue :=
  if transformTruthy transform = false then .ok value
  else
    match value with
    | .str s => do
      let chain ← parseTransformChain (transform.getD "")
      chain.foldlM (applyTransformStep env reg) (.str s)
    | v => .ok v

/-- Embedding of the standalone `src/transforms/removeSuffix.js`: remove
the given literal suffix when the string ends with it exactly, then trim
whitespace; otherwise (or for a non-string value or falsy suffix) return
the input unchanged.  `value.slice(0, -suffix.length)` keeps the first
`length - suffix.length` units. -/
def removeSuffix (value : JSValue) (suffix : String) : JSValue :=
  match value with
  | .str s =>
    if suffix = "" then .str s
    else if jsEndsWith s suffix then
      .str (jsTrim ((s.data.take (s.data.length - suffix.data.length)).asString))
    else .str s
  | v => v

/-- A matched element as consumed by `Scraper.extractData`: text content,
inner markup, outer markup and named-attribute lookup (an absent attribute
is `none`, modelling `undefined`). -/
structure Elem where
  text : String
  innerMarkup : String
  outerMarkup : String
  attr : String → Option String

/-- A rendered, queryable document (the cheerio `$` function):
`doc selector` is the ordered list of matched elements, or `.error` when
the selector is invalid and the query throws. -/
abbrev Doc : Type :=
  String → Except String (List Elem)

/-- The selector field of a column definition: absent/`null`, a single
selector string, or an ordered fallback list. -/
inductive SelectorSpec where
  | none
  | one (s : String)
  | list (ss : List String)
deriving DecidableEq, Repr

/-- A column definition from the schema. -/
structure Column where
  name : String
  selector : SelectorSpec
  attrMode : String
  required : Bool
  default : Option String
  transform : Option String
deriving DecidableEq, Repr

/-- A schema: the declarative list of column definitions (the
`pageSettings` and `config` blocks drive external collaborators and are
not part of the extraction model). -/
structure Schema where
  columns : List Column
deriving DecidableEq, Repr

/-- Test `!column.selector || column.selector === null`: absent, `null` or the
empty selector string is falsy (an empty *array* is truthy). -/
def selectorFalsy : SelectorSpec → Bool
  | .none => true
  | .one s => s = ""
  | .list _ => false

/-- Model of `Array.isArray(column.selector) ? column.selector : [column.selector]`. -/
def selectorList : SelectorSpec → List String
  | .none => []
  | .one s => [s]
  | .list ss => ss

/-- An absent attribute value (`undefined`) as a `JSValue`. -/
def optStr : Option String → JSValue
  | Option.none => .undef
  | Option.some s => .str s

/-- The attribute `switch` of `Scraper.extractData`, evaluated on the
first matched element. -/
def extractAttrValue (env : JsEnv) (attrMode : String) (e : Elem) (url : String) : JSValue :=
  if attrMode = "text" ∨ attrMode = "innerText" then .str (jsTrim e.text)
  else if attrMode = "html" ∨ attrMode = "innerHTML" then .str e.innerMarkup
  else if attrMode = "outerHTML" then .str e.outerMarkup
  else if attrMode = "href" then optStr (e.attr "href")
  else if attrMode = "src" then
    match e.attr "src" with
    | Option.none => .undef
    | Option.some v =>
      if v ≠ "" ∧ jsStartsWith v "http" = false then .str (env.resolveUrl v url)
      else .str v
  else if attrMode = "content" then optStr (e.attr "content")
  else optStr (e.attr attrMode)

/-- The candidate loop of `Scraper.extractData`: each selector is queried
in order inside a `try`; a query error or zero matches moves on to the
next candidate; a non-empty raw value (`!== undefined/null/''`) is passed
through the transform chain and returned, but an error thrown by the
transform chain is caught by the same per-candidate `catch` and also moves
on; when no candidate wins, `column.default || ''` is returned (with no
transform applied). -/
def extractGo (env : JsEnv) (reg : Registry) (doc : Doc) (col : Column) (url : String) :
    List String → Except String JSValue
  | [] => .ok (.str (col.default.getD ""))
  | sel :: rest =>
    match doc sel with
    | .error _ => extractGo env reg doc col url rest
    | .ok [] => extractGo env reg doc col url rest
    | .ok (e :: _) =>
      let raw := extractAttrValue env col.attrMode e url
      if raw ≠ JSValue.undef ∧ raw ≠ JSValue.null ∧ raw ≠ JSValue.str "" then
        match transformValue env reg raw col.transform with
        | .ok v => .ok v
        | .error _ => extractGo env reg doc col url rest
      else extractGo env reg doc col url rest

/-- Embedding of `Scraper.extractData`: the `url` attribute short-circuits
to the source URL (transformed when a transform is present, with a
transform error propagating to the caller); a falsy selector yields the
default; otherwise the candidate loop runs. -/
def extractData (env : JsEnv) (reg : Registry) (doc : Doc) (col : Column) (url : String) :
    Except String JSValue :=
  if col.attrMode = "url" then
    if transformTruthy col.transform then transformValue env reg (.str url) col.transform
    else .ok (.str url)
  else if selectorFalsy col.selector then .ok (.str (col.default.getD ""))
  else extractGo env reg doc col url (selectorList col.selector)

/-- The outcome of one selector candidate in the loop of
`Scraper.extractData`: `some v` when the candidate is the kind that
short-circuits the loop (its query succeeds with at least one match, its
raw attribute value is non-empty, and the transform chain succeeds,
producing `v`); `none` when the candidate is skipped. -/
def candidateValue (env : JsEnv) (reg : Registry) (doc : Doc) (col : Column)
    (url : String) (sel : String) : Option JSValue :=
  match doc sel with
  | .error _ => Option.none
  | .ok [] => Option.none
  | .ok (e :: _) =>
    let raw := extractAttrValue env col.attrMode e url
    if raw ≠ JSValue.undef ∧ raw ≠ JSValue.null ∧ raw ≠ JSValue.str "" then
      match transformValue env reg raw col.transform with
      | .ok v => Option.some v
      | .error _ => Option.none
    else Option.none

/-- A record: the ordered field list assembled for one URL. -/
abbrev Record : Type :=
  List (String × JSValue)

/-- The record assembly of `Scraper.scrapePage` once the page content is
available: the fixed `url` and `timestamp` fields, then one field per
schema column, where a column whose extraction throws is caught and
replaced by `column.default || ''`. -/
def buildRecord (env : JsEnv) (reg : Registry) (doc : Doc) (schema : Schema)
    (url ts : String) : Record :=
  ("url", JSValue.str url) :: ("timestamp", JSValue.str ts) ::
    schema.columns.map (fun col =>
      (col.name,
       match extractData env reg doc col url with
       | .ok v => v
       | .error _ => JSValue.str (col.default.getD "")))

/-- Embedding of `Scraper.scrapePage`: the render outcome (navigation,
wait conditions and content serialization, provided by the external page
renderer) either yields a queryable document or throws; a throw is caught
and re-raised as `Page scraping failed: ...`; on success the record is
assembled (the optional screenshot step is external and not modelled). -/
def scrapePage (env : JsEnv) (reg : Registry) (render : Except String Doc)
    (schema : Schema) (url ts : String) : Except String Record :=
  match render with
  | .error e => .error ("Page scraping failed: " ++ e)
  | .ok doc => .ok (buildRecord env reg doc schema url ts)

/-- The retry recursion of `Scraper.scrapeWithRetry`, with the remaining
retry budget made explicit: `remaining` is `maxRetries - attempt`, so
`remaining = 0` exactly when the source's guard
`attempt < this.options.maxRetries` fails.  `render n` is the render
outcome of the n-th attempt.  The second component accumulates the total
backoff wait: `retryDelay * attempt` before each retry. -/
def scrapeWithRetryAux (env : JsEnv) (reg : Registry) (render : Nat → Except String Doc)
    (schema : Schema) (url ts : String) (retryDelay : Nat) :
    Nat → Nat → Except String Record × Nat
  | remaining, attempt =>
    match scrapePage env reg (render attempt) schema url ts with
    | .ok r => (.ok r, 0)
    | .error e =>
      match remaining with
      | 0 => (.error e, 0)
      | rem + 1 =>
        let next := scrapeWithRetryAux env reg render schema url ts retryDelay rem (attempt + 1)
        (next.1, retryDelay * attempt + next.2)

/-- Embedding of `Scraper.scrapeWithRetry` starting at a given attempt
number (the source calls it with the default `attempt = 1`). -/
def scrapeWithRetry (env : JsEnv) (reg : Registry) (render : Nat → Except String Doc)
    (schema : Schema) (url ts : String) (maxRetries retryDelay attempt : Nat) :
    Except String Record × Nat :=
  scrapeWithRetryAux env reg render schema url ts retryDelay (maxRetries - attempt) attempt

/-- The per-URL step of `Scraper.scrapeUrls`: run the retry orchestrator
from attempt 1; a success pushes the scraped record, a final failure is
caught and pushes `{ url, error, timestamp }` instead. -/
def scrapeOne (env : JsEnv) (reg : Registry) (render : Nat → Except String Doc)
    (schema : Schema) (url ts : String) (maxRetries retryDelay : Nat) : Record :=
  match (scrapeWithRetry env reg render schema url ts maxRetries retryDelay 1).1 with
  | .ok r => r
  | .error e => [("url", JSValue.str url), ("error", JSValue.str e), ("timestamp", JSValue.str ts)]

/-- Embedding of `Scraper.scrapeUrls`: the batch loop over the input URL
list, strictly sequential, pushing exactly one record per URL in order
(`render u n` is the render outcome of attempt `n` for URL `u`; the
inter-URL pacing delay does not affect the assembled records and is not
modelled). -/
def scrapeUrls (env : JsEnv) (reg : Registry) (render : String → Nat → Except String Doc)
    (schema : Schema) (urls : List String) (ts : String) (maxRetries retryDelay : Nat) :
    List Record :=
  match urls with
  | [] => []
  | u :: rest =>
    scrapeOne env reg (render u) schema u ts maxRetries retryDelay ::
      scrapeUrls env reg render schema rest ts maxRetries retryDelay

/-- The required-field test of `Validator.validateScrapedData`:
`!value || (typeof value === 'string' && value.trim() === '')`, where an
absent field reads as `undefined`. -/
def isMissingOrEmpty (v : JSValue) : Bool :=
  jsFalsy v ||
    (match v with
     | .str s => jsTrim s = ""
     | _ => false)

/-- The per-record error list of `Validator.validateScrapedData`: one
`Missing required field: ...` entry per required column whose value fails
the required-field test. -/
def rowErrors (requiredCols : List Column) (row : Record) : List String :=
  requiredCols.filterMap (fun col =>
    if isMissingOrEmpty ((List.lookup col.name row).getD .undef) then
      Option.some ("Missing required field: " ++ col.name)
    else Option.none)

/-- The per-record warning list of `Validator.validateScrapedData`: one
entry per field holding a truthy string longer than 10000 characters. -/
def rowWarnings (row : Record) : List String :=
  row.filterMap (fun kv =>
    match kv.2 with
    | JSValue.str s =>
      if s ≠ "" ∧ s.length > 10000 then
        Option.some ("Large content in " ++ kv.1 ++ " (" ++ toString s.length ++ " chars)")
      else Option.none
    | _ => Option.none)

/-- The per-record validation annotation attached to invalid records. -/
structure RowValidation where
  rowIndex : Nat
  errors : List String
  warnings : List String
deriving DecidableEq, Repr

/-- One entry of the batch-level warning list. -/
structure WarningEntry where
  rowIndex : Nat
  url : JSValue
  warnings : List String
deriving DecidableEq, Repr

/-- The result of `Validator.validateScrapedData`: the `valid`/`invalid`
partition (invalid records annotated with their validation) and the
non-fatal warnings. -/
structure VResults where
  valid : List Record
  invalid : List (Record × RowValidation)
  warnings : List WarningEntry
deriving DecidableEq, Repr

/-- The `forEach` body of `Validator.validateScrapedData`, indexed from
`idx` (the source's `rowIndex` is `index + 1`). -/
def validateGo (requiredCols : List Column) : List Record → Nat → VResults
  | [], _ => ⟨[], [], []⟩
  | row :: rest, idx =>
    let errs := rowErrors requiredCols row
    let warns := rowWarnings row
    let r := validateGo requiredCols rest (idx + 1)
    let r1 : VResults :=
      if errs ≠ [] then ⟨r.valid, (row, ⟨idx + 1, errs, warns⟩) :: r.invalid, r.warnings⟩
      else ⟨row :: r.valid, r.invalid, r.warnings⟩
    if warns ≠ [] then
      ⟨r1.valid, r1.invalid, ⟨idx + 1, (List.lookup "url" row).getD .undef, warns⟩ :: r1.warnings⟩
    else r1

/-- Embedding of `Validator.validateScrapedData`. -/
def validateScrapedData (data : List Record) (schema : Schema) : VResults :=
  validateGo (schema.columns.filter (fun col => col.required)) data 0

/-! ### Concrete fixtures used by witnesses and counterexamples -/

/-- A trivial URL environment: nothing parses as an absolute URL and
relative resolution is the identity on the value. -/
def trivEnv : JsEnv :=
  ⟨fun _ => Option.none, fun v _ => v⟩

/-- An empty custom-transform registry: every load fails. -/
def emptyReg : Registry :=
  fun _ => Option.none

/-- An element carrying only text content. -/
def mkTextElem (t : String) : Elem :=
  ⟨t, t, t, fun _ => Option.none⟩

/-- A document where selector `a` matches an element with text `5` and
selector `b` one with text `x`. -/
def docNum : Doc :=
  fun sel =>
    if sel = "a" then .ok [mkTextElem "5"]
    else if sel = "b" then .ok [mkTextElem "x"]
    else .ok []

/-- A column with fallback selectors `["a","b"]` and the transform chain
`number,trim`. -/
def colNumTrim : Column :=
  ⟨"val", .list ["a", "b"], "text", false, Option.none, Option.some "number,trim"⟩

/-- A document where no selector matches anything. -/
def docNoMatch : Doc :=
  fun _ => .ok []

/-- A column with default `ABC` and transform `lowercase` whose selector
never matches. -/
def colDefLower : Column :=
  ⟨"t", .list ["a"], "text", false, Option.some "ABC", Option.some "lowercase"⟩

/-- A column reading the source URL through a malformed custom transform. -/
def colUrlBad : Column :=
  ⟨"slug", .none, "url", false, Option.none, Option.some "custom:bad"⟩

/-- A required title column. -/
def colTitle : Column :=
  ⟨"title", .one "h1", "text", true, Option.none, Option.none⟩

/-- A schema containing the malformed-transform column and a normal one. -/
def schemaBad : Schema :=
  ⟨[colUrlBad, colTitle]⟩

/-- A document with an `h1` element of text `T`. -/
def docTitle : Doc :=
  fun sel => if sel = "h1" then .ok [mkTextElem "T"] else .ok []

/-- A renderer that always succeeds with `docTitle`. -/
def renderOkT : String → Nat → Except String Doc :=
  fun _ _ => .ok docTitle

/-- A per-attempt renderer failing on attempts 1 and 2 and succeeding on
attempt 3. -/
def renderTwiceFail : Nat → Except String Doc :=
  fun a => if a = 1 then .error "e1" else if a = 2 then .error "e2" else .ok docTitle

/-- A per-attempt renderer that always fails. -/
def renderAlwaysFail : Nat → Except String Doc :=
  fun _ => .error "E"

/-- A per-URL renderer where only `https://u2` fails. -/
def renderMidFail : String → Nat → Except String Doc :=
  fun u _ => if u = "https://u2" then .error "boom" else .ok docTitle

/-- A schema with one required column. -/
def schemaPrice : Schema :=
  ⟨[⟨"price", .one ".price", "text", true, Option.none, Option.none⟩]⟩

/-- A document where only selector `b` matches (text `Hello`). -/
def docHello : Doc :=
  fun sel => if sel = "b" then .ok [mkTextElem "Hello"] else .ok []

/-- A plain text column with fallback selectors and no transform. -/
def colPlain : Column :=
  ⟨"t2", .list ["a", "b"], "text", false, Option.some "D", Option.none⟩

/-- Every invocation recorded by the chain parser came from an invocation
text that was trimmed before classification and was non-empty after
trimming: builtin invocations store the trimmed text verbatim, custom
invocations are parsed from the trimmed text. -/
def FromTrimmedToken (t : TransformInv) : Prop :=
  ∃ raw : List Char, trimChars raw ≠ [] ∧
    ((startsWithCustom (trimChars raw) = true ∧
        parseCustomTransformL (trimChars raw) = .ok t) ∨
     (startsWithCustom (trimChars raw) = false ∧
        t = .builtin (trimChars raw).asString))

/-- The first short-circuiting candidate of the selector loop (in order). -/
def firstCandidate (env : JsEnv) (reg : Registry) (doc : Doc) (col : Column)
    (url : String) : List String → Option JSValue
  | [] => Option.none
  | sel :: rest =>
    match candidateValue env reg doc col url sel with
    | Option.some v => Option.some v
    | Option.none => firstCandidate env reg doc col url rest

/-! ### Sanity checks on concrete inputs -/

example : parseTransformChain "removeSuffix( home delivery),trim,lowercase" =
    .ok [.builtin "removeSuffix( home delivery)", .builtin "trim", .builtin "lowercase"] := by
  rfl

example : parseTransformChain "custom:cleanHTML(h1,p;.ads,.sidebar)" =
    .ok [.custom "cleanHTML" ["h1,p", ".ads,.sidebar"]] := by
  rfl

example : parseTransformChain " trim , lowercase ,," =
    .ok [.builtin "trim", .builtin "lowercase"] := by
  rfl

example : parseTransformChain "trim,custom:bad,lowercase" =
    .error "Invalid custom transform syntax: custom:bad" := by
  rfl

example : removeSuffix (.str "Product 1 home delivery") " home delivery" = .str "Product 1" := by
  rfl
example : extractData trivEnv emptyReg docNum colNumTrim "https://x" = .ok (.str "x") := by
  rfl

example : transformValue trivEnv emptyReg (.str "5") (Option.some "number,trim") =
    .error "TypeError: value.trim is not a function" := by
  rfl

example : extractData trivEnv emptyReg docNoMatch colDefLower "https://x" = .ok (.str "ABC") := by
  rfl

example : extractData trivEnv emptyReg docNoMatch colUrlBad "https://x" =
    .error "Invalid custom transform syntax: custom:bad" := by
  rfl

example :
    scrapeUrls trivEnv emptyReg renderOkT schemaBad ["https://a", "https://b"] "ts" 3 2 =
      [[("url", .str "https://a"), ("timestamp", .str "ts"), ("slug", .str ""),
        ("title", .str "T")],
       [("url", .str "https://b"), ("timestamp", .str "ts"), ("slug", .str ""),
        ("title", .str "T")]] := by
  rfl

example :
    scrapeWithRetry trivEnv emptyReg renderTwiceFail schemaBad "https://a" "ts" 3 7 1 =
      (.ok (buildRecord trivEnv emptyReg docTitle schemaBad "https://a" "ts"), 7 * 1 + 7 * 2) := by
  rfl

example :
    scrapeWithRetry trivEnv emptyReg renderAlwaysFail schemaBad "https://a" "ts" 3 7 1 =
      (.error "Page scraping failed: E", 7 * 1 + 7 * 2) := by
  rfl

example :
    validateScrapedData [[("price", JSValue.num 0)]] schemaPrice =
      ⟨[], [([("price", JSValue.num 0)],
             ⟨1, ["Missing required field: price"], []⟩)], []⟩ := by
  rfl

example : transformValue trivEnv emptyReg (.str "Product 1 home delivery")
    (Option.some "removeSuffix( home delivery)") = .ok (.str "Product 1 home delivery") := by
  rfl

/-! ### Helper lemmas -/

theorem flushToken_good {current : List Char} {t : TransformInv}
    (h : flushToken current = .ok (some t)) : FromTrimmedToken t := by
  unfold flushToken at h
  by_cases h1 : trimChars current = []
  · simp [h1] at h
  · rw [if_neg h1] at h
    by_cases h2 : startsWithCustom (trimChars current) = true
    · rw [if_pos h2] at h
      refine ⟨current, h1, Or.inl ⟨h2, ?_⟩⟩
      cases hp : parseCustomTransformL (trimChars current) with
      | error e => rw [hp] at h; exact absurd h (by simp [Except.map])
      | ok t0 =>
        rw [hp] at h
        simp only [Except.map] at h
        cases h
        rfl
    · rw [if_neg h2] at h
      cases h
      exact ⟨current, h1, Or.inr ⟨by simpa using h2, rfl⟩⟩

theorem parseChainGo_tokens :
    ∀ (cs current : List Char) (inC : Bool) (pc : Int) (ts : List TransformInv),
      parseChainGo cs current inC pc = .ok ts → ∀ t ∈ ts, FromTrimmedToken t := by
  intro cs
  induction cs with
  | nil =>
    intro current inC pc ts h t ht
    unfold parseChainGo at h
    cases hf : flushToken current with
    | error e => rw [hf] at h; cases h
    | ok o =>
      cases o with
      | none => rw [hf] at h; cases h; cases ht
      | some t0 =>
        rw [hf] at h
        cases h
        rcases List.mem_singleton.mp ht with rfl
        exact flushToken_good hf
  | cons c cs ih =>
    intro current inC pc ts h t ht
    unfold parseChainGo at h
    by_cases hc : (c = ',' ∧ (stepState current inC pc c).1 = false)
    · rw [if_pos hc] at h
      cases hf : flushToken current with
      | error e => rw [hf] at h; cases h
      | ok o =>
        cases o with
        | none =>
          rw [hf] at h
          exact ih [] _ _ _ h t ht
        | some t0 =>
          rw [hf] at h
          cases hrest : parseChainGo cs [] (stepState current inC pc c).1
              (stepState current inC pc c).2 with
          | error e => rw [hrest] at h; exact absurd h (by simp [Except.map])
          | ok ts0 =>
            rw [hrest] at h
            simp only [Except.map] at h
            cases h
            rcases List.mem_cons.mp ht with rfl | hmem
            · exact flushToken_good hf
            · exact ih [] _ _ _ hrest t hmem
    · rw [if_neg hc] at h
      exact ih (current ++ [c]) _ _ _ h t ht

theorem extractGo_eq_firstCandidate (env : JsEnv) (reg : Registry) (doc : Doc)
    (col : Column) (url : String) :
    ∀ sels, extractGo env reg doc col url sels =
      (match firstCandidate env reg doc col url sels with
       | Option.some v => .ok v
       | Option.none => .ok (.str (col.default.getD ""))) := by
  intro sels
  induction sels with
  | nil => rfl
  | cons sel rest ih =>
    show extractGo env reg doc col url (sel :: rest) = _
    unfold extractGo firstCandidate candidateValue
    cases hq : doc sel with
    | error e => exact ih
    | ok elems =>
      cases elems with
      | nil => exact ih
      | cons e es =>
        dsimp only
        by_cases hraw : (extractAttrValue env col.attrMode e url ≠ JSValue.undef ∧
            extractAttrValue env col.attrMode e url ≠ JSValue.null ∧
            extractAttrValue env col.attrMode e url ≠ JSValue.str "")
        · rw [if_pos hraw, if_pos hraw]
          cases ht : transformValue env reg (extractAttrValue env col.attrMode e url)
              col.transform with
          | ok v => rfl
          | error err => exact ih
        · rw [if_neg hraw, if_neg hraw]
          exact ih

theorem firstCandidate_all_none (env : JsEnv) (reg : Registry) (doc : Doc)
    (col : Column) (url : String) :
    ∀ sels, (∀ s ∈ sels, candidateValue env reg doc col url s = Option.none) →
      firstCandidate env reg doc col url sels = Option.none := by
  intro sels
  induction sels with
  | nil => intro _; rfl
  | cons sel rest ih =>
    intro h
    unfold firstCandidate
    rw [h sel (List.mem_cons_self sel rest)]
    exact ih (fun s hs => h s (List.mem_cons_of_mem sel hs))

theorem firstCandidate_first_hit (env : JsEnv) (reg : Registry) (doc : Doc)
    (col : Column) (url : String) :
    ∀ sels1 (sel : String) sels2 v,
      (∀ s ∈ sels1, candidateValue env reg doc col url s = Option.none) →
      candidateValue env reg doc col url sel = Option.some v →
      firstCandidate env reg doc col url (sels1 ++ sel :: sels2) = Option.some v := by
  intro sels1
  induction sels1 with
  | nil =>
    intro sel sels2 v _ hsel
    rw [List.nil_append]
    unfold firstCandidate
    rw [hsel]
  | cons s0 rest ih =>
    intro sel sels2 v hnone hsel
    show firstCandidate env reg doc col url (s0 :: (rest ++ sel :: sels2)) = _
    unfold firstCandidate
    rw [hnone s0 (List.mem_cons_self s0 rest)]
    exact ih sel sels2 v (fun s hs => hnone s (List.mem_cons_of_mem s0 hs)) hsel

theorem validateGo_valid (reqCols : List Column) :
    ∀ (data : List Record) (idx : Nat),
      (validateGo reqCols data idx).valid =
        data.filter (fun row => (rowErrors reqCols row).isEmpty) := by
  intro data
  induction data with
  | nil => intro idx; rfl
  | cons row rest ih =>
    intro idx
    simp only [validateGo, List.filter_cons]
    by_cases herr : rowErrors reqCols row = [] <;>
      by_cases hw : rowWarnings row = [] <;>
        simp [herr, hw, ih, List.isEmpty_iff]

theorem validateGo_invalid_rows (reqCols : List Column) :
    ∀ (data : List Record) (idx : Nat),
      (validateGo reqCols data idx).invalid.map Prod.fst =
        data.filter (fun row => !(rowErrors reqCols row).isEmpty) := by
  intro data
  induction data with
  | nil => intro idx; rfl
  | cons row rest ih =>
    intro idx
    simp only [validateGo, List.filter_cons]
    by_cases herr : rowErrors reqCols row = [] <;>
      by_cases hw : rowWarnings row = [] <;>
        simp [herr, hw, ih, List.isEmpty_iff]

theorem validateGo_length (reqCols : List Column) :
    ∀ (data : List Record) (idx : Nat),
      (validateGo reqCols data idx).valid.length +
        (validateGo reqCols data idx).invalid.length = data.length := by
  intro data
  induction data with
  | nil => intro idx; rfl
  | cons row rest ih =>
    intro idx
    simp only [validateGo]
    by_cases herr : rowErrors reqCols row = [] <;>
      by_cases hw : rowWarnings row = [] <;>
        (simp [herr, hw]
         have := ih (idx + 1)
         omega)

theorem validateGo_invalid_annot (reqCols : List Column) :
    ∀ (data : List Record) (idx : Nat),
      ∀ p ∈ (validateGo reqCols data idx).invalid,
        p.2.errors = rowErrors reqCols p.1 ∧ p.2.errors ≠ [] := by
  intro data
  induction data with
  | nil => intro idx p hp; cases hp
  | cons row rest ih =>
    intro idx p hp
    simp only [validateGo] at hp
    by_cases herr : rowErrors reqCols row = [] <;>
      by_cases hw : rowWarnings row = [] <;>
        simp only [herr, hw, if_pos, if_neg, ne_eq, not_true_eq_false, not_false_eq_true,
          ite_true, ite_false, if_true, if_false] at hp
    case pos =>
      exact ih (idx + 1) p hp
    case neg =>
      exact ih (idx + 1) p hp
    case pos =>
      rcases List.mem_cons.mp hp with rfl | hmem
      · exact ⟨rfl, herr⟩
      · exact ih (idx + 1) p hmem
    case neg =>
      rcases List.mem_cons.mp hp with rfl | hmem
      · exact ⟨rfl, herr⟩
      · exact ih (idx + 1) p hmem

theorem rowErrors_ne_nil_iff (reqCols : List Column) (row : Record) :
    rowErrors reqCols row ≠ [] ↔
      ∃ col ∈ reqCols, isMissingOrEmpty ((List.lookup col.name row).getD .undef) = true := by
  induction reqCols with
  | nil => simp [rowErrors]
  | cons c cs ih =>
    by_cases hc : isMissingOrEmpty ((List.lookup c.name row).getD .undef) = true
    · have hstep : rowErrors (c :: cs) row =
          ("Missing required field: " ++ c.name) :: rowErrors cs row := by
        simp [rowErrors, List.filterMap_cons, hc]
      rw [hstep]
      simp only [ne_eq, List.cons_ne_nil, not_false_eq_true, true_iff]
      exact ⟨c, List.mem_cons_self c cs, hc⟩
    · have hstep : rowErrors (c :: cs) row = rowErrors cs row := by
        simp [rowErrors, List.filterMap_cons, hc]
      rw [hstep, ih]
      constructor
      · rintro ⟨col, hmem, hcol⟩
        exact ⟨col, List.mem_cons_of_mem c hmem, hcol⟩
      · rintro ⟨col, hmem, hcol⟩
        rcases List.mem_cons.mp hmem with rfl | hmem2
        · exact absurd hcol hc
        · exact ⟨col, hmem2, hcol⟩

theorem scrapeWithRetryAux_unfold (env : JsEnv) (reg : Registry)
    (render : Nat → Except String Doc) (schema : Schema) (url ts : String)
    (rd rem attempt : Nat) :
    scrapeWithRetryAux env reg render schema url ts rd rem attempt =
      (match scrapePage env reg (render attempt) schema url ts with
       | .ok r => (.ok r, 0)
       | .error e =>
         match rem with
         | 0 => (.error e, 0)
         | rem' + 1 =>
           ((scrapeWithRetryAux env reg render schema url ts rd rem' (attempt + 1)).1,
            rd * attempt +
              (scrapeWithRetryAux env reg render schema url ts rd rem' (attempt + 1)).2)) := by
  conv_lhs => unfold scrapeWithRetryAux

theorem scrapeWithRetry_success (env : JsEnv) (reg : Registry)
    (render : Nat → Except String Doc) (schema : Schema) (url ts : String)
    (maxR rd attempt : Nat) {r : Record}
    (h : scrapePage env reg (render attempt) schema url ts = .ok r) :
    scrapeWithRetry env reg render schema url ts maxR rd attempt = (.ok r, 0) := by
  unfold scrapeWithRetry
  rw [scrapeWithRetryAux_unfold, h]

theorem scrapeWithRetry_backoff (env : JsEnv) (reg : Registry)
    (render : Nat → Except String Doc) (schema : Schema) (url ts : String)
    (maxR rd attempt : Nat) {e : String}
    (h1 : scrapePage env reg (render attempt) schema url ts = .error e)
    (h2 : attempt < maxR) :
    scrapeWithRetry env reg render schema url ts maxR rd attempt =
      ((scrapeWithRetry env reg render schema url ts maxR rd (attempt + 1)).1,
       rd * attempt +
         (scrapeWithRetry env reg render schema url ts maxR rd (attempt + 1)).2) := by
  unfold scrapeWithRetry
  have hrem : maxR - attempt = (maxR - (attempt + 1)) + 1 := by omega
  rw [hrem, scrapeWithRetryAux_unfold, h1]

theorem scrapeWithRetry_exhausted (env : JsEnv) (reg : Registry)
    (render : Nat → Except String Doc) (schema : Schema) (url ts : String)
    (maxR rd attempt : Nat) {e : String}
    (h1 : scrapePage env reg (render attempt) schema url ts = .error e)
    (h2 : maxR ≤ attempt) :
    scrapeWithRetry env reg render schema url ts maxR rd attempt = (.error e, 0) := by
  unfold scrapeWithRetry
  have hrem : maxR - attempt = 0 := by omega
  rw [hrem, scrapeWithRetryAux_unfold, h1]

/-! ### Claim theorems -/

/-- C2: the transform-chain parser splits invocations on commas only at
parenthesis depth zero (commas inside the argument list of a
`custom:<name>(...)` invocation are not separators), trims each invocation
text before classifying it, drops invocations that are empty after
trimming, and splits a custom invocation's arguments on `;`; in
particular `"removeSuffix( home delivery),trim,lowercase"` parses to three
ordered invocations and `"custom:cleanHTML(h1,p;.ads,.sidebar)"` parses to
one custom invocation named `cleanHTML` with arguments
`["h1,p", ".ads,.sidebar"]`. -/
theorem C2_theorem :
    parseTransformChain "removeSuffix( home delivery),trim,lowercase" =
      .ok [.builtin "removeSuffix( home delivery)", .builtin "trim", .builtin "lowercase"]
  ∧ parseTransformChain "custom:cleanHTML(h1,p;.ads,.sidebar)" =
      .ok [.custom "cleanHTML" ["h1,p", ".ads,.sidebar"]]
  ∧ parseTransformChain " trim , lowercase ,," = .ok [.builtin "trim", .builtin "lowercase"]
  ∧ ∀ chain ts, parseTransformChain chain = .ok ts → ∀ t ∈ ts, FromTrimmedToken t := by
  refine ⟨rfl, rfl, rfl, ?_⟩
  intro chain ts h t ht
  exact parseChainGo_tokens chain.data [] false 0 ts h t ht

/-- C2 witness: the general conjunct applied to the concrete chains of the
claim. -/
theorem C2_witness :
    FromTrimmedToken (.builtin "trim")
  ∧ FromTrimmedToken (.custom "cleanHTML" ["h1,p", ".ads,.sidebar"]) := by
  constructor
  · exact C2_theorem.2.2.2 " trim , lowercase ,," [.builtin "trim", .builtin "lowercase"]
      C2_theorem.2.2.1 (.builtin "trim") (by decide)
  · exact C2_theorem.2.2.2 "custom:cleanHTML(h1,p;.ads,.sidebar)"
      [.custom "cleanHTML" ["h1,p", ".ads,.sidebar"]] C2_theorem.2.1
      (.custom "cleanHTML" ["h1,p", ".ads,.sidebar"]) (by decide)

/-- C5 counterexample: a record whose required column `price` holds the
number `0` is placed in the invalid partition by `validateScrapedData`
(JS falsiness: `!0` is true), although its value is neither missing nor an
empty/whitespace-only string — so "invalid iff some required value is
missing or (for strings) empty/whitespace-only" fails as stated. -/
theorem C5_counterexample :
    (validateScrapedData [[("price", JSValue.num 0)]] schemaPrice).invalid.map Prod.fst =
      [[("price", JSValue.num 0)]]
  ∧ (validateScrapedData [[("price", JSValue.num 0)]] schemaPrice).valid = []
  ∧ ¬ ∃ col ∈ schemaPrice.columns, col.required = true ∧
      (List.lookup col.name [("price", JSValue.num 0)] = Option.none ∨
       ∃ s, List.lookup col.name [("price", JSValue.num 0)] = Option.some (JSValue.str s) ∧
         jsTrim s = "") := by
  refine ⟨rfl, rfl, ?_⟩
  rintro ⟨col, hmem, _, hcond⟩
  have hcol : col = ⟨"price", .one ".price", "text", true, Option.none, Option.none⟩ := by
    simpa [schemaPrice] using hmem
  subst hcol
  rcases hcond with h | ⟨s, hs, _⟩
  · exact absurd h (by decide)
  · have h0 : List.lookup "price" [("price", JSValue.num 0)] =
        Option.some (JSValue.num 0) := rfl
    rw [h0] at hs
    cases hs

/-- C5 (amended): `validateScrapedData` partitions every record into
exactly one of `valid`/`invalid`, preserving order and dropping none;
a record goes to `invalid` — annotated with its non-empty error list —
iff some required column's value is missing or *falsy* (absent,
`undefined`/`null`, the empty string, the number `0`) or a
whitespace-only string; the oversized-field warnings never influence the
partition (it depends only on `rowErrors`). -/
theorem C5_theorem (data : List Record) (schema : Schema) :
    (validateScrapedData data schema).valid =
      data.filter (fun row =>
        (rowErrors (schema.columns.filter (fun c => c.required)) row).isEmpty)
  ∧ (validateScrapedData data schema).invalid.map Prod.fst =
      data.filter (fun row =>
        !(rowErrors (schema.columns.filter (fun c => c.required)) row).isEmpty)
  ∧ (validateScrapedData data schema).valid.length +
      (validateScrapedData data schema).invalid.length = data.length
  ∧ (∀ p ∈ (validateScrapedData data schema).invalid,
      p.2.errors = rowErrors (schema.columns.filter (fun c => c.required)) p.1 ∧
        p.2.errors ≠ [])
  ∧ (∀ row : Record,
      rowErrors (schema.columns.filter (fun c => c.required)) row ≠ [] ↔
        ∃ col ∈ schema.columns, col.required = true ∧
          isMissingOrEmpty ((List.lookup col.name row).getD .undef) = true) := by
  refine ⟨validateGo_valid _ data 0, validateGo_invalid_rows _ data 0,
    validateGo_length _ data 0, validateGo_invalid_annot _ data 0, ?_⟩
  intro row
  rw [rowErrors_ne_nil_iff]
  constructor
  · rintro ⟨col, hmem, hcond⟩
    rcases List.mem_filter.mp hmem with ⟨hmem2, hreq⟩
    exact ⟨col, hmem2, hreq, hcond⟩
  · rintro ⟨col, hmem, hreq, hcond⟩
    exact ⟨col, List.mem_filter.mpr ⟨hmem, hreq⟩, hcond⟩

/-- C5 witness: the valid-partition characterization at a concrete batch
(a whitespace-only required value is invalid, a non-empty one valid). -/
theorem C5_witness :
    (validateScrapedData [[("price", JSValue.str " ")], [("price", JSValue.str "ok")]]
      schemaPrice).valid = [[("price", JSValue.str "ok")]] := by
  have h := (C5_theorem [[("price", JSValue.str " ")], [("price", JSValue.str "ok")]]
    schemaPrice).1
  rw [h]
  rfl

/-- C6: a custom-transform invocation whose implementation fails to load
(`reg name = none`: module missing or not a callable) or whose execution
throws is caught, and the value that entered the invocation is returned
unchanged; inside the chain executor the step always succeeds with that
value, so the failure never propagates to the Field Extractor's caller. -/
theorem C6_theorem (env : JsEnv) (reg : Registry) (v : JSValue) (name : String)
    (args : List String)
    (h : reg name = Option.none ∨
         ∃ f e, reg name = Option.some f ∧ f v args = .error e) :
    applyCustomTransform reg v name args = v
  ∧ applyTransformStep env reg v (.custom name args) = .ok v := by
  have hmain : applyCustomTransform reg v name args = v := by
    rcases h with h | ⟨f, e, hf, he⟩
    · simp [applyCustomTransform, h]
    · simp [applyCustomTransform, hf, he]
  refine ⟨hmain, ?_⟩
  simp only [applyTransformStep]
  rw [hmain]

/-- C6 witness: a load failure at a concrete registry and value. -/
theorem C6_witness :
    applyCustomTransform emptyReg (.str "x") "cleanHTML" ["h1"] = .str "x"
  ∧ applyTransformStep trivEnv emptyReg (.str "x") (.custom "cleanHTML" ["h1"]) =
      .ok (.str "x") :=
  C6_theorem trivEnv emptyReg (.str "x") "cleanHTML" ["h1"] (Or.inl rfl)

/-- C7: an invocation text starting with `custom:` that does not match the
`custom:<name>(...)` pattern makes `parseCustomTransform` throw a hard
parse error which propagates through `parseTransformChain` and
`transformValue` to the Field Extractor (shown for a url-attribute
column); the error is contained per column by `scrapePage` — the record is
still assembled with one field per schema column — and the batch loop
still processes every remaining column and URL. -/
theorem C7_theorem :
    parseCustomTransform "custom:bad" = .error "Invalid custom transform syntax: custom:bad"
  ∧ parseTransformChain "trim,custom:bad,lowercase" =
      .error "Invalid custom transform syntax: custom:bad"
  ∧ transformValue trivEnv emptyReg (.str "v") (Option.some "trim,custom:bad,lowercase") =
      .error "Invalid custom transform syntax: custom:bad"
  ∧ extractData trivEnv emptyReg docNoMatch colUrlBad "https://x" =
      .error "Invalid custom transform syntax: custom:bad"
  ∧ (∀ (doc : Doc) (schema : Schema) (url ts : String),
      scrapePage trivEnv emptyReg (.ok doc) schema url ts =
        .ok (buildRecord trivEnv emptyReg doc schema url ts)
      ∧ (buildRecord trivEnv emptyReg doc schema url ts).length =
          schema.columns.length + 2)
  ∧ scrapeUrls trivEnv emptyReg renderOkT schemaBad ["https://a", "https://b"] "ts" 3 2 =
      [[("url", .str "https://a"), ("timestamp", .str "ts"), ("slug", .str ""),
        ("title", .str "T")],
       [("url", .str "https://b"), ("timestamp", .str "ts"), ("slug", .str ""),
        ("title", .str "T")]] := by
  refine ⟨rfl, rfl, rfl, rfl, ?_, rfl⟩
  intro doc schema url ts
  refine ⟨rfl, ?_⟩
  simp [buildRecord]

/-- C9: the standalone `removeSuffix` transform behaves as specified
(`"Product 1 home delivery"` with suffix `" home delivery"` gives
`"Product 1"`, an absent suffix returns the input unchanged), but invoking
it through the engine's transform chain does nothing:
`parseTransformChain` classifies `removeSuffix( home delivery)` as a
builtin of that literal name, and `applyBuiltinTransform` has no
`removeSuffix` case, so the value passes through unchanged — the code
contradicts `removeSuffix.js`'s own usage documentation. -/
theorem C9_theorem :
    removeSuffix (.str "Product 1 home delivery") " home delivery" = .str "Product 1"
  ∧ removeSuffix (.str "Product 1") " home delivery" = .str "Product 1"
  ∧ parseTransformChain "removeSuffix( home delivery)" =
      .ok [.builtin "removeSuffix( home delivery)"]
  ∧ transformValue trivEnv emptyReg (.str "Product 1 home delivery")
      (Option.some "removeSuffix( home delivery)") = .ok (.str "Product 1 home delivery")
  ∧ applyBuiltinTransform trivEnv (.str "Product 1 home delivery")
      "removeSuffix( home delivery)" = .ok (.str "Product 1 home delivery") :=
  ⟨rfl, rfl, rfl, rfl, rfl⟩

/-- C10: a builtin invocation whose name is not exactly one of `trim`,
`lowercase`, `uppercase`, `number`, `slugFromUrl` falls through the
`switch` to `default: return value` — it acts as the identity on every
string value and raises no error. -/
theorem C10_theorem (env : JsEnv) (s name : String)
    (h1 : name ≠ "trim") (h2 : name ≠ "lowercase") (h3 : name ≠ "uppercase")
    (h4 : name ≠ "number") (h5 : name ≠ "slugFromUrl") :
    applyBuiltinTransform env (.str s) name = .ok (.str s) := by
  unfold applyBuiltinTransform
  rw [if_neg h1, if_neg h2, if_neg h3, if_neg h4, if_neg h5]

/-- C10 witness: the argument-bearing bare invocation name parsed from
`removeSuffix( home delivery)` acts as the identity. -/
theorem C10_witness :
    applyBuiltinTransform trivEnv (.str "Product 1 home delivery")
      "removeSuffix( home delivery)" = .ok (.str "Product 1 home delivery") :=
  C10_theorem trivEnv "Product 1 home delivery" "removeSuffix( home delivery)"
    (by decide) (by decide) (by decide) (by decide) (by decide)

/-- C3: on a render failure the Retry Orchestrator retries while the
attempt count is below `maxRetries`, waiting `retryDelay * attempt` before
the next attempt (linear backoff); a renderer that fails exactly twice and
then succeeds, with `maxRetries = 3`, yields the successful record with
total backoff `retryDelay * 1 + retryDelay * 2`; once the attempt count
reaches `maxRetries` the final error is raised instead of retrying. -/
theorem C3_theorem (env : JsEnv) (reg : Registry)
    (render render2 : Nat → Except String Doc) (schema : Schema) (url ts : String)
    (rd : Nat) (doc : Doc) (e1 e2 : String)
    (h1 : render 1 = .error e1) (h2 : render 2 = .error e2) (h3 : render 3 = .ok doc)
    (errf : Nat → String) (h4 : ∀ a, render2 a = .error (errf a)) :
    scrapeWithRetry env reg render schema url ts 3 rd 1 =
      (.ok (buildRecord env reg doc schema url ts), rd * 1 + rd * 2)
  ∧ (∀ maxR a, a < maxR →
      scrapeWithRetry env reg render2 schema url ts maxR rd a =
        ((scrapeWithRetry env reg render2 schema url ts maxR rd (a + 1)).1,
         rd * a + (scrapeWithRetry env reg render2 schema url ts maxR rd (a + 1)).2))
  ∧ (∀ maxR a, maxR ≤ a →
      scrapeWithRetry env reg render2 schema url ts maxR rd a =
        (.error ("Page scraping failed: " ++ errf a), 0)) := by
  have hp1 : scrapePage env reg (render 1) schema url ts =
      .error ("Page scraping failed: " ++ e1) := by
    rw [h1]; rfl
  have hp2 : scrapePage env reg (render 2) schema url ts =
      .error ("Page scraping failed: " ++ e2) := by
    rw [h2]; rfl
  have hp3 : scrapePage env reg (render 3) schema url ts =
      .ok (buildRecord env reg doc schema url ts) := by
    rw [h3]; rfl
  refine ⟨?_, ?_, ?_⟩
  · rw [scrapeWithRetry_backoff env reg render schema url ts 3 rd 1 hp1 (by omega)]
    rw [scrapeWithRetry_backoff env reg render schema url ts 3 rd 2 hp2 (by omega)]
    rw [scrapeWithRetry_success env reg render schema url ts 3 rd 3 hp3]
    simp
  · intro maxR a ha
    exact scrapeWithRetry_backoff env reg render2 schema url ts maxR rd a
      (by rw [h4 a]; rfl) ha
  · intro maxR a ha
    exact scrapeWithRetry_exhausted env reg render2 schema url ts maxR rd a
      (by rw [h4 a]; rfl) ha

/-- C3 witness: the fails-twice-then-succeeds scenario and the exhaustion
case at concrete inputs. -/
theorem C3_witness :
    scrapeWithRetry trivEnv emptyReg renderTwiceFail schemaBad "https://a" "ts" 3 7 1 =
      (.ok (buildRecord trivEnv emptyReg docTitle schemaBad "https://a" "ts"), 7 * 1 + 7 * 2)
  ∧ scrapeWithRetry trivEnv emptyReg renderAlwaysFail schemaBad "https://a" "ts" 3 7 3 =
      (.error "Page scraping failed: E", 0) := by
  have h := C3_theorem trivEnv emptyReg renderTwiceFail renderAlwaysFail schemaBad
    "https://a" "ts" 7 docTitle "e1" "e2" rfl rfl rfl (fun _ => "E") (fun _ => rfl)
  exact ⟨h.1, h.2.2 3 3 (Nat.le_refl 3)⟩

/-- C4: the batch result of `scrapeUrls` is exactly one record per input
URL in input order (it is the map of the per-URL step over the URL list,
so its length equals the input length and nothing is dropped); a URL whose
retries are exhausted contributes the record
`{ url, error: final message, timestamp }`, in which no schema-declared
column (other than the implicit `url`/`error`/`timestamp` field names) is
present. -/
theorem C4_theorem (env : JsEnv) (reg : Registry)
    (render : String → Nat → Except String Doc) (schema : Schema)
    (urls : List String) (ts : String) (maxR rd : Nat) :
    scrapeUrls env reg render schema urls ts maxR rd =
      urls.map (fun u => scrapeOne env reg (render u) schema u ts maxR rd)
  ∧ (scrapeUrls env reg render schema urls ts maxR rd).length = urls.length
  ∧ ∀ u e, (scrapeWithRetry env reg (render u) schema u ts maxR rd 1).1 = .error e →
      scrapeOne env reg (render u) schema u ts maxR rd =
        [("url", JSValue.str u), ("error", JSValue.str e), ("timestamp", JSValue.str ts)]
      ∧ ∀ col ∈ schema.columns, col.name ∉ ["url", "error", "timestamp"] →
          List.lookup col.name (scrapeOne env reg (render u) schema u ts maxR rd) =
            Option.none := by
  have hmap : scrapeUrls env reg render schema urls ts maxR rd =
      urls.map (fun u => scrapeOne env reg (render u) schema u ts maxR rd) := by
    induction urls with
    | nil => rfl
    | cons u rest ih =>
      show scrapeOne env reg (render u) schema u ts maxR rd ::
          scrapeUrls env reg render schema rest ts maxR rd = _
      rw [ih, List.map_cons]
  refine ⟨hmap, by rw [hmap, List.length_map], ?_⟩
  intro u e he
  have hone : scrapeOne env reg (render u) schema u ts maxR rd =
      [("url", JSValue.str u), ("error", JSValue.str e), ("timestamp", JSValue.str ts)] := by
    unfold scrapeOne
    rw [he]
  refine ⟨hone, ?_⟩
  intro col hmem hnotin
  rw [hone]
  simp only [List.mem_cons, List.not_mem_nil, or_false, not_or] at hnotin
  obtain ⟨hu, herr, hts⟩ := hnotin
  have b1 : (col.name == "url") = false := beq_eq_false_iff_ne.mpr hu
  have b2 : (col.name == "error") = false := beq_eq_false_iff_ne.mpr herr
  have b3 : (col.name == "timestamp") = false := beq_eq_false_iff_ne.mpr hts
  simp [List.lookup, b1, b2, b3]

/-- C4 witness: a three-URL batch whose middle URL always fails keeps all
three records in input order; the failed record carries only
`url`/`error`/`timestamp` and no declared column. -/
theorem C4_witness :
    scrapeUrls trivEnv emptyReg renderMidFail schemaBad
      ["https://u1", "https://u2", "https://u3"] "ts" 2 5 =
      ["https://u1", "https://u2", "https://u3"].map
        (fun u => scrapeOne trivEnv emptyReg (renderMidFail u) schemaBad u "ts" 2 5)
  ∧ scrapeOne trivEnv emptyReg (renderMidFail "https://u2") schemaBad "https://u2" "ts" 2 5 =
      [("url", JSValue.str "https://u2"), ("error", JSValue.str "Page scraping failed: boom"),
       ("timestamp", JSValue.str "ts")]
  ∧ List.lookup "title"
      (scrapeOne trivEnv emptyReg (renderMidFail "https://u2") schemaBad "https://u2" "ts" 2 5) =
      Option.none := by
  have h := C4_theorem trivEnv emptyReg renderMidFail schemaBad
    ["https://u1", "https://u2", "https://u3"] "ts" 2 5
  have h3 := h.2.2 "https://u2" "Page scraping failed: boom" (by rfl)
  exact ⟨h.1, h3.1, h3.2 colTitle (by decide) (by decide)⟩

/-- C1 counterexample: with selector candidates `["a","b"]` and transform
chain `number,trim`, the first candidate `a` yields the non-empty
pre-transform value `"5"`, yet its transform chain throws (`number` turns
it into a number and `trim` is not a function on numbers), the per-
candidate `catch` absorbs the throw, and the extractor returns `"x"` — the
transformed value of the *later* candidate `b` — so "later candidates are
never consulted once a candidate yields a non-empty pre-transform value,
and the transformed result of that winning candidate is returned" fails as
stated. -/
theorem C1_counterexample :
    extractData trivEnv emptyReg docNum colNumTrim "https://x" = .ok (.str "x")
  ∧ docNum "a" = .ok [mkTextElem "5"]
  ∧ colNumTrim.selector = .list ["a", "b"]
  ∧ extractAttrValue trivEnv colNumTrim.attrMode (mkTextElem "5") "https://x" = .str "5"
  ∧ JSValue.str "5" ≠ JSValue.str ""
  ∧ transformValue trivEnv emptyReg (.str "5") colNumTrim.transform =
      .error "TypeError: value.trim is not a function"
  ∧ JSValue.str "x" ≠ JSValue.str "5" :=
  ⟨rfl, rfl, rfl, rfl, by decide, rfl, by decide⟩

/-- C1 (amended): for a non-`url` attribute and a selector candidate list,
the Field Extractor uses the first candidate (in schema order) whose query
succeeds with at least one match, whose extracted pre-transform value is
non-empty, *and* whose transform chain evaluates without error; candidates
with zero matches, query errors, empty extracted values or transform
errors are skipped, later candidates are not consulted once such a
candidate exists, its transformed result is returned even if the transform
made it empty, and if no candidate qualifies the default is returned. -/
theorem C1_theorem (env : JsEnv) (reg : Registry) (doc : Doc) (col : Column)
    (url : String) (sels : List String)
    (h1 : col.attrMode ≠ "url") (h2 : col.selector = .list sels) :
    extractData env reg doc col url =
      (match firstCandidate env reg doc col url sels with
       | Option.some v => .ok v
       | Option.none => .ok (.str (col.default.getD "")))
  ∧ (∀ sels1 sel sels2 v, sels = sels1 ++ sel :: sels2 →
      (∀ s ∈ sels1, candidateValue env reg doc col url s = Option.none) →
      candidateValue env reg doc col url sel = Option.some v →
      extractData env reg doc col url = .ok v)
  ∧ (∀ sel v, candidateValue env reg doc col url sel = Option.some v ↔
      ∃ e rest, doc sel = .ok (e :: rest) ∧
        extractAttrValue env col.attrMode e url ≠ JSValue.undef ∧
        extractAttrValue env col.attrMode e url ≠ JSValue.null ∧
        extractAttrValue env col.attrMode e url ≠ JSValue.str "" ∧
        transformValue env reg (extractAttrValue env col.attrMode e url) col.transform =
          .ok v) := by
  have hmain : extractData env reg doc col url =
      (match firstCandidate env reg doc col url sels with
       | Option.some v => .ok v
       | Option.none => .ok (.str (col.default.getD ""))) := by
    unfold extractData
    rw [if_neg h1, h2]
    show extractGo env reg doc col url sels = _
    exact extractGo_eq_firstCandidate env reg doc col url sels
  refine ⟨hmain, ?_, ?_⟩
  · intro sels1 sel sels2 v hsplit hnone hsel
    rw [hmain, hsplit,
      firstCandidate_first_hit env reg doc col url sels1 sel sels2 v hnone hsel]
  · intro sel v
    constructor
    · intro hc
      unfold candidateValue at hc
      cases hq : doc sel with
      | error e => rw [hq] at hc; cases hc
      | ok elems =>
        cases elems with
        | nil => rw [hq] at hc; cases hc
        | cons e es =>
          rw [hq] at hc
          dsimp only at hc
          by_cases hraw : (extractAttrValue env col.attrMode e url ≠ JSValue.undef ∧
              extractAttrValue env col.attrMode e url ≠ JSValue.null ∧
              extractAttrValue env col.attrMode e url ≠ JSValue.str "")
          · rw [if_pos hraw] at hc
            cases ht : transformValue env reg (extractAttrValue env col.attrMode e url)
                col.transform with
            | ok v0 =>
              rw [ht] at hc
              cases hc
              exact ⟨e, es, rfl, hraw.1, hraw.2.1, hraw.2.2, ht⟩
            | error err => rw [ht] at hc; cases hc
          · rw [if_neg hraw] at hc
            cases hc
    · rintro ⟨e, rest, hq, hr1, hr2, hr3, ht⟩
      unfold candidateValue
      rw [hq]
      dsimp only
      rw [if_pos ⟨hr1, hr2, hr3⟩, ht]

/-- C1 witness: the fallback characterization at a concrete document where
the first candidate has no match and the second wins. -/
theorem C1_witness :
    extractData trivEnv emptyReg docHello colPlain "https://x" = .ok (.str "Hello") := by
  have h := (C1_theorem trivEnv emptyReg docHello colPlain "https://x" ["a", "b"]
    (by decide) rfl).1
  rw [h]
  rfl

/-- C8 counterexample: a column with default `ABC` and transform chain
`lowercase` whose selector never matches returns the *raw* default `ABC`;
the transform chain applied to the default would give `abc`, so "the
transform chain is applied to the default value before it is returned"
fails as stated. -/
theorem C8_counterexample :
    extractData trivEnv emptyReg docNoMatch colDefLower "https://x" = .ok (.str "ABC")
  ∧ transformValue trivEnv emptyReg (.str "ABC") colDefLower.transform = .ok (.str "abc")
  ∧ JSValue.str "ABC" ≠ JSValue.str "abc" :=
  ⟨rfl, rfl, by decide⟩

/-- C8 (amended): when every selector candidate of a non-`url` column
yields nothing (no match, query error, empty value, or transform error),
the Field Extractor returns `column.default || ''` verbatim — the
transform chain is *not* applied to the default. -/
theorem C8_theorem (env : JsEnv) (reg : Registry) (doc : Doc) (col : Column)
    (url : String) (sels : List String)
    (h1 : col.attrMode ≠ "url") (h2 : col.selector = .list sels)
    (h3 : ∀ sel ∈ sels, candidateValue env reg doc col url sel = Option.none) :
    extractData env reg doc col url = .ok (.str (col.default.getD "")) := by
  unfold extractData
  rw [if_neg h1, h2]
  show extractGo env reg doc col url sels = _
  rw [extractGo_eq_firstCandidate env reg doc col url sels,
    firstCandidate_all_none env reg doc col url sels h3]

/-- C8 witness: the raw default at a concrete no-match document. -/
theorem C8_witness :
    extractData trivEnv emptyReg docNoMatch colDefLower "https://y" = .ok (.str "ABC") :=
  C8_theorem trivEnv emptyReg docNoMatch colDefLower "https://y" ["a"]
    (by decide) rfl (by decide)

end UWS
